import Mathlib

/-!
# Verification of the BLS booking simulator

A shallow embedding of `src/BLS.py` (a CLI booking *simulator*): the record
model, the evaluation function `simulate_check`, the worker-pool semantics of
`worker_check`/`multi_thread_check`, the fail-closed stub `real_book_request`,
the booking handler `handle_attempt_book`, and the flat-file record format
with its two readers.  Theorems at the end settle the specification's claims
against these definitions.
-/

namespace BLS

/-- The `BLSRecord` class (BLS.py lines 93-99): code, expiry, ref, balance and
the `generated_at` timestamp set at construction time (modelled as a plain
number; it never influences any computation below). Python's unbounded `int`
balance is an `Int`. -/
structure BLSRecord where
  code : String
  expiry : String
  ref : String
  balance : Int
  generated_at : Nat
deriving DecidableEq, Repr

/-- `sum(ord(c) for c in record.code)` from `simulate_check` (line 129):
`ord` of a character is its code point, `Char.toNat`. -/
def charSum (s : String) : Nat :=
  s.data.foldl (fun a c => a + c.toNat) 0

/-- `simulate_check` (BLS.py lines 123-135) minus the `time.sleep`, which has
no effect on the returned value.  The Python test is
`rnd > 0.85 or record.balance >= 120` with `rnd = (seed % 100) / 100.0`.
Since `seed % 100 ∈ 0..99`, both `(seed % 100) / 100.0` and the literal
`0.85` are correctly rounded doubles of the exact rationals `k/100` and
`85/100`, so the float comparison `rnd > 0.85` holds exactly when
`85 < seed % 100`; the embedding uses that integer test. -/
def simulate_check (r : BLSRecord) : Option String :=
  if 85 < charSum r.code % 100 ∨ 120 ≤ r.balance then
    some ("HIT: " ++ r.code ++ "|" ++ r.expiry ++ "|" ++ r.ref ++ "|$" ++ toString r.balance)
  else none

/-- `REAL_INTEGRATION_ENABLED` (BLS.py line 43). -/
def REAL_INTEGRATION_ENABLED : Bool := false

/-- The two ways `real_book_request` can raise (lines 213-223): the
`RuntimeError` configuration gate and the `NotImplementedError`. -/
inductive BookFailure where
  | configError (msg : String)
  | notImplementedError (msg : String)
deriving DecidableEq, Repr

/-- The response dict shape produced by
`real_book_request_simulation_placeholder` (lines 191-202). -/
structure BookingResponse where
  status : String
  message : String
  appointment_id : Option String
  record : String
deriving DecidableEq, Repr

/-- `BLSRecord.__str__` (lines 101-102): `f"{code}|{expiry}|{ref}|${balance}"`. -/
def recordStr (r : BLSRecord) : String :=
  r.code ++ "|" ++ r.expiry ++ "|" ++ r.ref ++ "|$" ++ toString r.balance

/-- `real_book_request` (BLS.py lines 204-223), with the module-level flag
made an explicit argument.  Raising is modelled as `Except.error`; the
function has no `return` statement, matching its `Except`-only outcomes. -/
def real_book_request (enabled : Bool) (_record : BLSRecord) :
    Except BookFailure BookingResponse :=
  if !enabled then
    .error (.configError
      "Real integration disabled by configuration (REAL_INTEGRATION_ENABLED=False).")
  else
    .error (.notImplementedError
      "Implement real_book_request with official API call if you have legal access.")

/-- `real_book_request_simulation_placeholder` (lines 174-202), with the
draw `random.random() > 0.78` passed in as the Boolean `rndGt`, and the
eight random digits of the simulated appointment id as `apptSuffix`. -/
def real_book_request_simulation_placeholder (rndGt : Bool) (apptSuffix : String)
    (r : BLSRecord) : BookingResponse :=
  if rndGt = true ∨ 120 ≤ r.balance then
    { status := "success", message := "Simulated booking confirmed",
      appointment_id := some ("SIM-" ++ apptSuffix), record := recordStr r }
  else
    { status := "fail", message := "Simulated no-availability or invalid credentials",
      appointment_id := none, record := recordStr r }

/-- What one loop iteration of `handle_attempt_book` (lines 261-279) reports
for the sampled record. -/
inductive AttemptReport where
  | realResponse (resp : BookingResponse)
  | realError (e : BookFailure)
  | simSuccess (apptId : String)
  | simFail (msg : String)
deriving DecidableEq, Repr

/-- Whether the report is the per-attempt configuration error
(`RuntimeError` surfaced by the `except` arm at line 271). -/
def reportsConfigError : AttemptReport → Bool
  | .realError (.configError _) => true
  | _ => false

/-- One iteration of the loop in `handle_attempt_book` (BLS.py lines
261-279): the branch on `REAL_INTEGRATION_ENABLED and args.use_real`, the
`try`/`except` around `real_book_request`, and otherwise the simulation
placeholder with its conditional append of a `BOOKED_SIM` line to the hits
file.  Returns the report together with the list of lines appended to
`VALID_OUTPUT_FILE`. -/
def handle_attempt_book_one (enabled useReal rndGt : Bool) (apptSuffix : String)
    (r : BLSRecord) : AttemptReport × List String :=
  if enabled && useReal then
    match real_book_request enabled r with
    | .ok resp => (.realResponse resp, [])
    | .error e => (.realError e, [])
  else
    let resp := real_book_request_simulation_placeholder rndGt apptSuffix r
    if resp.status = "success" then
      (.simSuccess (resp.appointment_id.getD ""),
        ["BOOKED_SIM|" ++ resp.appointment_id.getD "" ++ "|" ++ recordStr r])
    else
      (.simFail resp.message, [])

/-! ## Worker pool semantics

`multi_thread_check` (BLS.py lines 150-169) fills a `queue.Queue` with the
records, starts `min(threads, len(records))` threads running `worker_check`
(lines 137-148), calls `q.join()` and then drains the output queue.  The
embedding is a small-step transition system: a worker is either `idle`
(about to call `q.get_nowait()`) or `busy r` (holding the claimed record
`r`; it will evaluate it, put a hit on the output queue if any, and call
`q.task_done()`).  `q.join()` returns exactly when the queue's
unfinished-task counter reaches zero, at which point the output queue is
drained into `found`.

The evaluation a worker performs is a parameter
`evalF : BLSRecord → Option (Option String)`: `some o` means
`simulate_check` returned `o`, `none` means it raised (the hypothetical
fault of the error-handling claims — `worker_check` wraps no `try` around
`simulate_check`, so a raise kills the thread before `task_done`).  The
actual program is `evalSim`, which never raises. -/

/-- State of one worker thread running `worker_check`. -/
inductive WorkerState where
  | idle : WorkerState
  | busy : BLSRecord → WorkerState
deriving DecidableEq, Repr

/-- `True` on a worker that has claimed a record and not yet finished it. -/
def isBusy : WorkerState → Bool
  | .idle => false
  | .busy _ => true

/-- Number of workers currently holding a claimed record. -/
def busyCount (ws : List WorkerState) : Nat :=
  ws.countP isBusy

/-- The shared state of one `multi_thread_check` run: the task queue `q`,
its unfinished-task counter, the output queue `out_q`, the worker threads,
and a ghost count of workers killed by a raised exception. -/
structure PoolState where
  taskQ : List BLSRecord
  unfinished : Nat
  outQ : List String
  workers : List WorkerState
  faulted : Nat
deriving DecidableEq, Repr

/-- The state after lines 151-159 of `multi_thread_check`: every record
enqueued (so `unfinished = len(records)`), empty output queue, and exactly
`min(threads, len(records))` started workers (the `for i in
range(min(threads, len(records)))` loop at line 156), all about to call
`q.get_nowait()`. -/
def initState (records : List BLSRecord) (threads : Nat) : PoolState :=
  { taskQ := records
    unfinished := records.length
    outQ := []
    workers := List.replicate (min threads records.length) .idle
    faulted := 0 }

/-- One interleaved step of the pool.  A worker is identified by its
position in `workers` (the decomposition `l ++ w :: ws₂`).
* `claim`: `q.get_nowait()` succeeds, atomically removing the queue head.
* `exitW`: `q.get_nowait()` raises `queue.Empty` and the worker returns.
* `finish`: the worker evaluates its record (`evalF rec = some o`), puts the
  hit (if any) on `out_q`, and calls `q.task_done()`, decrementing the
  unfinished counter.
* `fault`: evaluation raises (`evalF rec = none`); the thread dies without
  calling `q.task_done()`. -/
inductive WorkerStep (evalF : BLSRecord → Option (Option String)) :
    PoolState → PoolState → Prop where
  | claim (l ws₂ : List WorkerState) (rec : BLSRecord) (rest : List BLSRecord)
      (unf : Nat) (out : List String) (flt : Nat) :
      WorkerStep evalF ⟨rec :: rest, unf, out, l ++ .idle :: ws₂, flt⟩
        ⟨rest, unf, out, l ++ .busy rec :: ws₂, flt⟩
  | exitW (l ws₂ : List WorkerState) (unf : Nat) (out : List String) (flt : Nat) :
      WorkerStep evalF ⟨[], unf, out, l ++ .idle :: ws₂, flt⟩
        ⟨[], unf, out, l ++ ws₂, flt⟩
  | finish (l ws₂ : List WorkerState) (rec : BLSRecord) (o : Option String)
      (tq : List BLSRecord) (unf : Nat) (out : List String) (flt : Nat) :
      evalF rec = some o →
      WorkerStep evalF ⟨tq, unf, out, l ++ .busy rec :: ws₂, flt⟩
        ⟨tq, unf - 1, out ++ o.toList, l ++ .idle :: ws₂, flt⟩
  | fault (l ws₂ : List WorkerState) (rec : BLSRecord)
      (tq : List BLSRecord) (unf : Nat) (out : List String) (flt : Nat) :
      evalF rec = none →
      WorkerStep evalF ⟨tq, unf, out, l ++ .busy rec :: ws₂, flt⟩
        ⟨tq, unf, out, l ++ ws₂, flt + 1⟩

/-- Reachability under interleaved worker steps. -/
def Reach (evalF : BLSRecord → Option (Option String)) : PoolState → PoolState → Prop :=
  Relation.ReflTransGen (WorkerStep evalF)

/-- The evaluation the program actually runs: `worker_check` calls
`simulate_check`, which never raises. -/
def evalSim (r : BLSRecord) : Option (Option String) :=
  some (simulate_check r)

/-- Decreasing measure on pool states: every step strictly shrinks it. -/
def poolMeasure (s : PoolState) : Nat :=
  3 * s.taskQ.length + 2 * busyCount s.workers + s.workers.length

/-- Lines 164-167 of `multi_thread_check`: the lines appended to the hits
file `VALID_OUTPUT_FILE` — the whole `found` list when it is non-empty, and
nothing at all when `found` is empty (`if found:` guards the `open`). -/
def appendedHitLines (found : List String) : List String :=
  if found.isEmpty then [] else found

/-- A fault-injected evaluation for the error-handling claims: evaluating a
record whose code is `"FAULT"` raises; every other record behaves as
`simulate_check`.  (`worker_check` itself has no `try` around the
evaluation, so the raise propagates and kills the thread.) -/
def evalFault (r : BLSRecord) : Option (Option String) :=
  if r.code = "FAULT" then none else some (simulate_check r)

/-! ## Flat-file format: writer and the two readers -/

/-- Python's `str.split('|')` on a list of characters: splits at every `'|'`,
keeping empty fields.  `acc` is the current field, collected in reverse. -/
def splitPipe : List Char → List Char → List (List Char)
  | [], acc => [acc.reverse]
  | c :: rest, acc =>
    if c = '|' then acc.reverse :: splitPipe rest []
    else splitPipe rest (c :: acc)

/-- Python's `int(s)` restricted to what the program can meet: an optional
leading minus sign followed by decimal digits; anything else raises
(`none`). -/
def digitsToNat (cs : List Char) : Option Nat :=
  if cs ≠ [] ∧ cs.all (·.isDigit) then
    some (cs.foldl (fun a c => a * 10 + (c.toNat - 48)) 0)
  else none

/-- `int(bal)` as used by both readers (BLS.py lines 243 and 264). -/
def parseInt : List Char → Option Int
  | '-' :: rest => (digitsToNat rest).map (fun n => -(n : Int))
  | cs => (digitsToNat cs).map (fun n => (n : Int))

/-- Outcome of one loop iteration of the reader in `handle_simulate_check`
(BLS.py lines 239-243): the record appended, the silent skip when
`len(parts) < 4`, or a raised `ValueError` from `int(bal)`. -/
inductive ParseOutcome where
  | ok (r : BLSRecord)
  | skipped
  | err
deriving DecidableEq, Repr

/-- One iteration of the `for ln in lines` loop of `handle_simulate_check`
(lines 239-243): `parts = ln.split('|')`; if at least 4 parts, take the
first four, strip the leading `'$'` marks off the balance field
(`lstrip('$')`), and parse it as an integer.  The reconstructed record's
`generated_at` is the fresh `datetime.utcnow()` of the constructor,
modelled as `0`. -/
def parseLineCheck (ln : String) : ParseOutcome :=
  match splitPipe ln.data [] with
  | code :: expiry :: ref :: bal :: _ =>
    match parseInt (bal.dropWhile (· = '$')) with
    | some b => .ok ⟨⟨code⟩, ⟨expiry⟩, ⟨ref⟩, b, 0⟩
    | none => .err
  | _ => .skipped

/-- The whole record-loading loop of `handle_simulate_check` (lines
238-243) over the already-stripped non-empty lines: malformed lines are
skipped, a `ValueError` aborts the load (`Except.error`). -/
def loadRecords : List String → Except Unit (List BLSRecord)
  | [] => .ok []
  | ln :: rest =>
    match parseLineCheck ln with
    | .err => .error ()
    | .skipped => loadRecords rest
    | .ok r => (loadRecords rest).map (fun rs => r :: rs)

/-- The per-line parsing of `handle_attempt_book` (lines 262-264): same
split and balance handling but with NO `len(parts) >= 4` guard — the tuple
assignment `parts[0], parts[1], parts[2], parts[3]` raises `IndexError` on
fewer than 4 parts. -/
def parseLineAttempt (ln : String) : Except Unit BLSRecord :=
  match splitPipe ln.data [] with
  | code :: expiry :: ref :: bal :: _ =>
    match parseInt (bal.dropWhile (· = '$')) with
    | some b => .ok ⟨⟨code⟩, ⟨expiry⟩, ⟨ref⟩, b, 0⟩
    | none => .error ()
  | _ => .error ()

/-- The record-parsing part of the `for ln in sample` loop of
`handle_attempt_book` (lines 261-264): an uncaught `IndexError`/`ValueError`
on one sampled line aborts the whole batch. -/
def attemptParseAll : List String → Except Unit (List BLSRecord)
  | [] => .ok []
  | ln :: rest =>
    match parseLineAttempt ln with
    | .error e => .error e
    | .ok r => (attemptParseAll rest).map (fun rs => r :: rs)

/-! ## The generator's record shape -/

/-- The character `str(d)` for a decimal digit `d`. -/
def digitChar (d : Nat) : Char := Char.ofNat (48 + d)

/-- Decimal digits of `n`, most significant first, by fuel-bounded division
(the fuel `n + 1` always suffices). -/
def natReprGo : Nat → Nat → List Char → List Char
  | 0, _, acc => acc
  | fuel + 1, n, acc =>
    if n < 10 then digitChar n :: acc
    else natReprGo fuel (n / 10) (digitChar (n % 10) :: acc)

/-- Decimal rendering of a natural number, as Python's `str`. -/
def natRepr (n : Nat) : List Char := natReprGo (n + 1) n []

/-- `random_expiry` output format (BLS.py lines 76-79):
`f"{month:02d}/{year}"` for `1 ≤ month ≤ 12`. -/
def expiryStr (m y : Nat) : String :=
  ⟨(if m < 10 then '0' :: natRepr m else natRepr m) ++ '/' :: natRepr y⟩

/-- The shape of every record built by `generate_blscodes` (BLS.py lines
104-118): a 16-digit `code` (`random_string(16)` draws from
`string.digits`), an expiry `f"{month:02d}/{year}"` with month `1..12` and
year in `[startYear, startYear+5]` (`random_expiry(start_year, years=6)`),
a 3-digit `ref`, and a balance from
`random.choice([0, 10, 25, 69, 120, 180, 280])`. -/
def GeneratedRecord (startYear : Nat) (r : BLSRecord) : Prop :=
  r.code.length = 16 ∧ (∀ c ∈ r.code.data, c.isDigit) ∧
  (∃ m y, 1 ≤ m ∧ m ≤ 12 ∧ startYear ≤ y ∧ y ≤ startYear + 5 ∧
    r.expiry = expiryStr m y) ∧
  r.ref.length = 3 ∧ (∀ c ∈ r.ref.data, c.isDigit) ∧
  r.balance ∈ ([0, 10, 25, 69, 120, 180, 280] : List Int)

end BLS

/-! ## Theorems -/

namespace BLS

/-- The exact float comparison `(k % 100) / 100.0 > 0.85` of
`simulate_check`, stated over `ℚ`, is the integer test `85 < k % 100`. -/
theorem score_gt_iff (k : Nat) : ((k : ℚ) / 100 > 0.85) ↔ 85 < k := by
  rw [gt_iff_lt, show (0.85 : ℚ) = 85 / 100 by norm_num,
    div_lt_div_iff_of_pos_right (by norm_num : (0 : ℚ) < 100)]
  exact_mod_cast Iff.rfl

/-- C3: `simulate_check` accepts a record exactly when its
identifier-derived score exceeds 0.85 or its balance is at least 120; on
acceptance it returns the formatted `HIT:` string carrying the record's
identifier, expiry, reference and balance, and on rejection it returns
`None`. -/
theorem c3_simulate_check_rule (r : BLSRecord) :
    (simulate_check r =
        some ("HIT: " ++ r.code ++ "|" ++ r.expiry ++ "|" ++ r.ref ++ "|$" ++
          toString r.balance) ↔
      (((charSum r.code % 100 : ℕ) : ℚ) / 100 > 0.85 ∨ 120 ≤ r.balance)) ∧
    (simulate_check r = none ↔
      ¬(((charSum r.code % 100 : ℕ) : ℚ) / 100 > 0.85 ∨ 120 ≤ r.balance)) := by
  have key : (((charSum r.code % 100 : ℕ) : ℚ) / 100 > 0.85 ∨ 120 ≤ r.balance) ↔
      (85 < charSum r.code % 100 ∨ 120 ≤ r.balance) :=
    or_congr (score_gt_iff _) Iff.rfl
  rw [key, simulate_check]
  by_cases h : 85 < charSum r.code % 100 ∨ 120 ≤ r.balance
  · rw [if_pos h]; simp [h]
  · rw [if_neg h]; simp [h]

/-- C4: `simulate_check` is deterministic: two records equal in identifier,
expiry, reference and balance (whatever their creation timestamps) produce
the same outcome, success string included. -/
theorem c4_simulate_check_deterministic (r₁ r₂ : BLSRecord)
    (hcode : r₁.code = r₂.code) (hexp : r₁.expiry = r₂.expiry)
    (href : r₁.ref = r₂.ref) (hbal : r₁.balance = r₂.balance) :
    simulate_check r₁ = simulate_check r₂ := by
  obtain ⟨c₁, e₁, f₁, b₁, g₁⟩ := r₁
  obtain ⟨c₂, e₂, f₂, b₂, g₂⟩ := r₂
  simp only at hcode hexp href hbal
  subst hcode hexp href hbal
  rfl

/-- Witness for C4 at two concrete records that differ only in their
creation timestamps. -/
theorem c4_witness :
    simulate_check ⟨"12", "01/2025", "123", 120, 0⟩ =
      simulate_check ⟨"12", "01/2025", "123", 120, 99⟩ :=
  c4_simulate_check_deterministic _ _ rfl rfl rfl rfl

/-- C10: the accept/reject decision of `simulate_check` depends only on the
record's identifier and balance: equal identifier and balance force the
same decision, whatever the expiry, reference and timestamp. -/
theorem c10_decision_depends_only_on_code_balance (r₁ r₂ : BLSRecord)
    (hcode : r₁.code = r₂.code) (hbal : r₁.balance = r₂.balance) :
    ((simulate_check r₁).isSome ↔ (simulate_check r₂).isSome) := by
  obtain ⟨c₁, e₁, f₁, b₁, g₁⟩ := r₁
  obtain ⟨c₂, e₂, f₂, b₂, g₂⟩ := r₂
  simp only at hcode hbal
  subst hcode hbal
  simp only [simulate_check, apply_ite Option.isSome, Option.isSome_some,
    Option.isSome_none]

/-- Witness for C10 at two concrete records with equal identifier and
balance but different expiry, reference and timestamp. -/
theorem c10_witness :
    (simulate_check ⟨"77", "01/2025", "111", 0, 0⟩).isSome ↔
      (simulate_check ⟨"77", "12/2030", "999", 0, 5⟩).isSome :=
  c10_decision_depends_only_on_code_balance _ _ rfl rfl

/-- C5: `real_book_request` never returns normally: with the enable flag
false it raises the configuration `RuntimeError`, with the flag true it
raises `NotImplementedError`; in no case does it produce a response. -/
theorem c5_real_book_request_fail_closed (enabled : Bool) (r : BLSRecord) :
    (real_book_request enabled r).isOk = false ∧
    (enabled = false → real_book_request enabled r = .error (.configError
      "Real integration disabled by configuration (REAL_INTEGRATION_ENABLED=False).")) ∧
    (enabled = true → real_book_request enabled r = .error (.notImplementedError
      "Implement real_book_request with official API call if you have legal access.")) := by
  cases enabled <;> simp [real_book_request, Except.isOk, Except.toBool]

/-- Witness for C5: both failure modes at a concrete record, and the
default flag value is the disabled one. -/
theorem c5_witness :
    (real_book_request REAL_INTEGRATION_ENABLED ⟨"1", "01/2025", "123", 0, 0⟩).isOk
        = false ∧
    real_book_request false ⟨"1", "01/2025", "123", 0, 0⟩ = .error (.configError
      "Real integration disabled by configuration (REAL_INTEGRATION_ENABLED=False).") ∧
    real_book_request true ⟨"1", "01/2025", "123", 0, 0⟩ = .error (.notImplementedError
      "Implement real_book_request with official API call if you have legal access.") :=
  ⟨(c5_real_book_request_fail_closed false _).1,
   (c5_real_book_request_fail_closed false _).2.1 rfl,
   (c5_real_book_request_fail_closed true _).2.2 rfl⟩

/-! ### Worker pool lemmas -/

@[simp] theorem isBusy_idle : isBusy .idle = false := rfl

@[simp] theorem isBusy_busy (r : BLSRecord) : isBusy (.busy r) = true := rfl

@[simp] theorem busyCount_nil : busyCount [] = 0 := rfl

@[simp] theorem busyCount_append (l₁ l₂ : List WorkerState) :
    busyCount (l₁ ++ l₂) = busyCount l₁ + busyCount l₂ := by
  simp [busyCount, List.countP_append]

@[simp] theorem busyCount_cons_idle (ws : List WorkerState) :
    busyCount (.idle :: ws) = busyCount ws := by
  simp [busyCount, List.countP_cons]

@[simp] theorem busyCount_cons_busy (r : BLSRecord) (ws : List WorkerState) :
    busyCount (.busy r :: ws) = busyCount ws + 1 := by
  simp [busyCount, List.countP_cons]

theorem busyCount_replicate_idle (n : Nat) :
    busyCount (List.replicate n WorkerState.idle) = 0 := by
  induction n with
  | zero => rfl
  | succ n ih => simp [List.replicate_succ, busyCount, List.countP_cons, isBusy, ih]

/-- A step-closed predicate holds at every reachable state. -/
theorem reach_invariant {evalF : BLSRecord → Option (Option String)}
    (P : PoolState → Prop)
    (hstep : ∀ s s', WorkerStep evalF s s' → P s → P s')
    {s s' : PoolState} (h : Reach evalF s s') (h₀ : P s) : P s' := by
  induction h with
  | refl => exact h₀
  | tail _ hstep' ih => exact hstep _ _ hstep' ih

/-- The queue's unfinished-task counter always counts the still-queued
records, the records held by busy workers, and the records lost to a
fault. -/
theorem unfinished_eq {evalF : BLSRecord → Option (Option String)}
    {records : List BLSRecord} {threads : Nat} {s : PoolState}
    (h : Reach evalF (initState records threads) s) :
    s.unfinished = s.taskQ.length + busyCount s.workers + s.faulted := by
  refine reach_invariant
    (fun s => s.unfinished = s.taskQ.length + busyCount s.workers + s.faulted)
    ?_ h ?_
  · intro s s' hstep hP
    cases hstep <;>
      simp only [busyCount_append, busyCount_cons_idle, busyCount_cons_busy,
        List.length_cons] at hP ⊢ <;>
      omega
  · simp [initState, busyCount_replicate_idle]

/-- The output queue, the task queue and the busy workers together never
hold more than the number of input records. -/
theorem outQ_bound {evalF : BLSRecord → Option (Option String)}
    {records : List BLSRecord} {threads : Nat} {s : PoolState}
    (h : Reach evalF (initState records threads) s) :
    s.outQ.length + s.taskQ.length + busyCount s.workers ≤ records.length := by
  refine reach_invariant
    (fun s => s.outQ.length + s.taskQ.length + busyCount s.workers ≤ records.length)
    ?_ h ?_
  · intro s s' hstep hP
    cases hstep with
    | finish l ws₂ rec o tq unf out flt _ =>
      have ho : o.toList.length ≤ 1 := by cases o <;> simp
      simp only [busyCount_append, busyCount_cons_idle, busyCount_cons_busy,
        List.length_append, List.length_cons] at hP ⊢
      omega
    | _ =>
      simp only [busyCount_append, busyCount_cons_idle, busyCount_cons_busy,
        List.length_append, List.length_cons] at hP ⊢
      omega
  · simp [initState, busyCount_replicate_idle]

/-- Under the program's fault-free evaluation, no worker ever dies and
workers only exit on an empty queue. -/
theorem no_fault_invariant {records : List BLSRecord} {threads : Nat} {s : PoolState}
    (h : Reach evalSim (initState records threads) s) (ht : 1 ≤ threads) :
    (s.workers = [] → s.taskQ = []) ∧ s.faulted = 0 := by
  refine reach_invariant
    (fun s => (s.workers = [] → s.taskQ = []) ∧ s.faulted = 0) ?_ h ?_
  · intro s s' hstep hP
    cases hstep with
    | claim l ws₂ rec rest unf out flt => exact ⟨by simp, hP.2⟩
    | exitW l ws₂ unf out flt => exact ⟨fun _ => rfl, hP.2⟩
    | finish l ws₂ rec o tq unf out flt _ => exact ⟨by simp, hP.2⟩
    | fault l ws₂ rec tq unf out flt hnone => simp [evalSim] at hnone
  · constructor
    · intro hw
      simp only [initState] at hw ⊢
      have h0 : min threads records.length = 0 := by
        simpa using congrArg List.length hw
      have h2 : records.length = 0 := by omega
      exact List.length_eq_zero.mp h2
    · rfl

/-- From a state with only idle workers, a busy worker exists whenever the
busy count is positive. -/
theorem exists_busy_decomp (ws : List WorkerState) (h : busyCount ws ≠ 0) :
    ∃ l rec ws₂, ws = l ++ WorkerState.busy rec :: ws₂ := by
  induction ws with
  | nil => simp [busyCount] at h
  | cons w tail ih =>
    cases w with
    | busy rec => exact ⟨[], rec, tail, rfl⟩
    | idle =>
      have h' : busyCount tail ≠ 0 := by
        simpa [busyCount, List.countP_cons, isBusy] using h
      obtain ⟨l, rec, ws₂, rfl⟩ := ih h'
      exact ⟨.idle :: l, rec, ws₂, rfl⟩

/-- Progress: under the fault-free evaluation, a reachable state where the
join barrier is not yet satisfied always has an enabled step. -/
theorem pool_progress {records : List BLSRecord} {threads : Nat} {s : PoolState}
    (ht : 1 ≤ threads) (h : Reach evalSim (initState records threads) s)
    (hne : s.unfinished ≠ 0) : ∃ s', WorkerStep evalSim s s' := by
  have hA := unfinished_eq h
  have hBC := no_fault_invariant h ht
  obtain ⟨tq, unf, out, ws, flt⟩ := s
  simp only at hA hBC hne
  by_cases hb : busyCount ws = 0
  · have htq : tq ≠ [] := by
      intro htq; subst htq; simp at hA; omega
    have hws : ws ≠ [] := fun hws => htq (hBC.1 hws)
    obtain ⟨w, ws', rfl⟩ := List.exists_cons_of_ne_nil hws
    cases w with
    | busy rec => simp [busyCount, List.countP_cons] at hb
    | idle =>
      obtain ⟨rec, rest, rfl⟩ := List.exists_cons_of_ne_nil htq
      exact ⟨_, WorkerStep.claim [] ws' rec rest unf out flt⟩
  · obtain ⟨l, rec, ws₂, rfl⟩ := exists_busy_decomp ws hb
    exact ⟨_, WorkerStep.finish l ws₂ rec (simulate_check rec) tq unf out flt rfl⟩

/-- Every pool step strictly decreases the measure: no run is infinite. -/
theorem poolMeasure_decreases {evalF : BLSRecord → Option (Option String)}
    (s s' : PoolState) (h : WorkerStep evalF s s') :
    poolMeasure s' < poolMeasure s := by
  cases h <;>
    simp only [poolMeasure, busyCount_append, busyCount_cons_idle,
      busyCount_cons_busy, List.length_append, List.length_cons] <;>
    omega

/-- A single worker can drain the whole queue: from a state whose head
worker is idle and whose counter matches the queue, the join barrier is
reachable. -/
theorem run_to_join (tq : List BLSRecord) (out : List String)
    (ws' : List WorkerState) :
    ∃ s, Reach evalSim ⟨tq, tq.length, out, .idle :: ws', 0⟩ s ∧
      s.unfinished = 0 := by
  induction tq generalizing out with
  | nil => exact ⟨_, .refl, rfl⟩
  | cons rec rest ih =>
    obtain ⟨s, hs, hu⟩ := ih (out ++ (simulate_check rec).toList)
    refine ⟨s, ?_, hu⟩
    have h1 : WorkerStep evalSim ⟨rec :: rest, (rec :: rest).length, out, .idle :: ws', 0⟩
        ⟨rest, (rec :: rest).length, out, .busy rec :: ws', 0⟩ :=
      WorkerStep.claim [] ws' rec rest _ out 0
    have h2 : WorkerStep evalSim ⟨rest, (rec :: rest).length, out, .busy rec :: ws', 0⟩
        ⟨rest, (rec :: rest).length - 1, out ++ (simulate_check rec).toList,
          .idle :: ws', 0⟩ :=
      WorkerStep.finish [] ws' rec (simulate_check rec) rest _ out 0 rfl
    have hlen : (rec :: rest).length - 1 = rest.length := by simp
    rw [hlen] at h2
    exact .head h1 (.head h2 hs)

/-- No step is possible once the worker list is empty. -/
theorem no_step_no_workers {evalF : BLSRecord → Option (Option String)}
    {s s' : PoolState} (h : WorkerStep evalF s s') (hw : s.workers = []) :
    False := by
  cases h <;> simp_all


/-- Splitting a singleton worker list around a distinguished element. -/
theorem append_singleton_cases {l ws₂ : List WorkerState} {w x : WorkerState}
    (h : l ++ w :: ws₂ = [x]) : l = [] ∧ w = x ∧ ws₂ = [] := by
  cases l with
  | nil => simp only [List.nil_append, List.cons.injEq] at h; exact ⟨rfl, h.1, h.2⟩
  | cons a l' =>
    exfalso
    simp only [List.cons_append, List.cons.injEq] at h
    have := h.2
    simp at this

/-- Inversion of a pool step, usable at concrete states. -/
theorem workerStep_inv {evalF : BLSRecord → Option (Option String)}
    {s s' : PoolState} (h : WorkerStep evalF s s') :
    (∃ l ws₂ rec rest, s.workers = l ++ .idle :: ws₂ ∧ s.taskQ = rec :: rest ∧
      s' = ⟨rest, s.unfinished, s.outQ, l ++ .busy rec :: ws₂, s.faulted⟩) ∨
    (∃ l ws₂, s.workers = l ++ .idle :: ws₂ ∧ s.taskQ = [] ∧
      s' = ⟨[], s.unfinished, s.outQ, l ++ ws₂, s.faulted⟩) ∨
    (∃ l ws₂ rec o, s.workers = l ++ .busy rec :: ws₂ ∧ evalF rec = some o ∧
      s' = ⟨s.taskQ, s.unfinished - 1, s.outQ ++ o.toList, l ++ .idle :: ws₂, s.faulted⟩) ∨
    (∃ l ws₂ rec, s.workers = l ++ .busy rec :: ws₂ ∧ evalF rec = none ∧
      s' = ⟨s.taskQ, s.unfinished, s.outQ, l ++ ws₂, s.faulted + 1⟩) := by
  cases h with
  | claim l ws₂ rec rest unf out flt =>
    exact Or.inl ⟨l, ws₂, rec, rest, rfl, rfl, rfl⟩
  | exitW l ws₂ unf out flt =>
    exact Or.inr (Or.inl ⟨l, ws₂, rfl, rfl, rfl⟩)
  | finish l ws₂ rec o tq unf out flt he =>
    exact Or.inr (Or.inr (Or.inl ⟨l, ws₂, rec, o, rfl, he, rfl⟩))
  | fault l ws₂ rec tq unf out flt he =>
    exact Or.inr (Or.inr (Or.inr ⟨l, ws₂, rec, rfl, he, rfl⟩))

/-- The three states reachable when a single worker meets the faulting
record first: queue loaded, record claimed, worker dead.  The set is closed
under steps under `evalFault`. -/
theorem cex_step_closed (s s' : PoolState)
    (hstep : WorkerStep evalFault s s')
    (hP : s = ⟨[⟨"FAULT", "01/2025", "123", 0, 0⟩, ⟨"2", "01/2025", "124", 150, 0⟩], 2, [], [.idle], 0⟩ ∨
      s = ⟨[⟨"2", "01/2025", "124", 150, 0⟩], 2, [], [.busy ⟨"FAULT", "01/2025", "123", 0, 0⟩], 0⟩ ∨
      s = ⟨[⟨"2", "01/2025", "124", 150, 0⟩], 2, [], [], 1⟩) :
    (s' = ⟨[⟨"FAULT", "01/2025", "123", 0, 0⟩, ⟨"2", "01/2025", "124", 150, 0⟩], 2, [], [.idle], 0⟩ ∨
      s' = ⟨[⟨"2", "01/2025", "124", 150, 0⟩], 2, [], [.busy ⟨"FAULT", "01/2025", "123", 0, 0⟩], 0⟩ ∨
      s' = ⟨[⟨"2", "01/2025", "124", 150, 0⟩], 2, [], [], 1⟩) := by
  rcases hP with rfl | rfl | rfl
  · rcases workerStep_inv hstep with
      ⟨l, ws₂, rec, rest, hw, htq, rfl⟩ | ⟨l, ws₂, hw, htq, rfl⟩ |
      ⟨l, ws₂, rec, o, hw, he, rfl⟩ | ⟨l, ws₂, rec, hw, he, rfl⟩
    · obtain ⟨rfl, hwx, rfl⟩ := append_singleton_cases hw.symm
      simp only [List.cons.injEq] at htq
      obtain ⟨rfl, rfl⟩ := htq
      right; left; rfl
    · simp at htq
    · obtain ⟨rfl, hwx, rfl⟩ := append_singleton_cases hw.symm
      exact absurd hwx (by simp)
    · obtain ⟨rfl, hwx, rfl⟩ := append_singleton_cases hw.symm
      exact absurd hwx (by simp)
  · rcases workerStep_inv hstep with
      ⟨l, ws₂, rec, rest, hw, htq, rfl⟩ | ⟨l, ws₂, hw, htq, rfl⟩ |
      ⟨l, ws₂, rec, o, hw, he, rfl⟩ | ⟨l, ws₂, rec, hw, he, rfl⟩
    · obtain ⟨rfl, hwx, rfl⟩ := append_singleton_cases hw.symm
      exact absurd hwx (by simp)
    · obtain ⟨rfl, hwx, rfl⟩ := append_singleton_cases hw.symm
      exact absurd hwx (by simp)
    · obtain ⟨rfl, hwx, rfl⟩ := append_singleton_cases hw.symm
      obtain ⟨rfl⟩ : rec = ⟨"FAULT", "01/2025", "123", 0, 0⟩ := by
        cases hwx; rfl
      simp [evalFault] at he
    · obtain ⟨rfl, hwx, rfl⟩ := append_singleton_cases hw.symm
      obtain ⟨rfl⟩ : rec = ⟨"FAULT", "01/2025", "123", 0, 0⟩ := by
        cases hwx; rfl
      right; right; rfl
  · rcases workerStep_inv hstep with
      ⟨l, ws₂, rec, rest, hw, htq, rfl⟩ | ⟨l, ws₂, hw, htq, rfl⟩ |
      ⟨l, ws₂, rec, o, hw, he, rfl⟩ | ⟨l, ws₂, rec, hw, he, rfl⟩ <;>
      simp at hw

/-- C2: `multi_thread_check` launches exactly `min(threads, len(records))`
workers, so never more than the number of records, even when the requested
count exceeds it. -/
theorem c2_worker_clamp (records : List BLSRecord) (threads : Nat) :
    (initState records threads).workers.length = min threads records.length ∧
    (initState records threads).workers.length ≤ records.length := by
  constructor
  · simp [initState]
  · simp [initState]


/-- C1 (amended): for every input list and every requested worker count of
at least 1, `multi_thread_check` makes progress at every non-joined
reachable state, every step strictly decreases a finite measure (so every
maximal run reaches the join barrier), the join barrier is reachable, and
every reachable state — in particular the returned result at the join —
holds at most `len(records)` results.  With zero input records it launches
zero workers, is joined immediately with an empty result, and appends
nothing to the hits file.  (With `threads = 0` and a non-empty input the
join is unreachable; see the counterexample.) -/
theorem c1_multi_thread_check_termination :
    (∀ (records : List BLSRecord) (threads : Nat) (s : PoolState),
        Reach evalSim (initState records threads) s →
        s.outQ.length ≤ records.length) ∧
    (∀ (evalF : BLSRecord → Option (Option String)) (s s' : PoolState),
        WorkerStep evalF s s' → poolMeasure s' < poolMeasure s) ∧
    (∀ (records : List BLSRecord) (threads : Nat) (s : PoolState),
        1 ≤ threads → Reach evalSim (initState records threads) s →
        s.unfinished ≠ 0 → ∃ s', WorkerStep evalSim s s') ∧
    (∀ (records : List BLSRecord) (threads : Nat), 1 ≤ threads →
        ∃ s, Reach evalSim (initState records threads) s ∧ s.unfinished = 0 ∧
          s.outQ.length ≤ records.length) ∧
    (∀ threads : Nat, (initState [] threads).workers = [] ∧
        (initState [] threads).unfinished = 0 ∧ (initState [] threads).outQ = [] ∧
        appendedHitLines (initState [] threads).outQ = []) := by
  refine ⟨?_, ?_, ?_, ?_, ?_⟩
  · intro records threads s h
    have := outQ_bound h
    omega
  · intro evalF s s' h
    exact poolMeasure_decreases s s' h
  · intro records threads s ht h hne
    exact pool_progress ht h hne
  · intro records threads ht
    rcases records with _ | ⟨r, rs⟩
    · exact ⟨_, .refl, rfl, by simp [initState]⟩
    · have hmin : 1 ≤ min threads (r :: rs).length := by
        refine Nat.le_min.mpr ⟨ht, ?_⟩
        simp
      have hw : List.replicate (min threads (r :: rs).length) WorkerState.idle =
          .idle :: List.replicate (min threads (r :: rs).length - 1) .idle := by
        conv_lhs => rw [show min threads (r :: rs).length =
          (min threads (r :: rs).length - 1) + 1 by omega]
        rw [List.replicate_succ]
      have hinit : initState (r :: rs) threads =
          ⟨r :: rs, (r :: rs).length, [],
            .idle :: List.replicate (min threads (r :: rs).length - 1) .idle, 0⟩ := by
        simp only [initState, hw]
      obtain ⟨s, hs, hu⟩ := run_to_join (r :: rs) []
        (List.replicate (min threads (r :: rs).length - 1) .idle)
      rw [← hinit] at hs
      refine ⟨s, hs, hu, ?_⟩
      have := outQ_bound hs
      omega
  · intro threads
    refine ⟨?_, rfl, rfl, rfl⟩
    simp [initState]

/-- C1 counterexample: with one record and a requested worker count of 0
(`min(0, 1) = 0` workers launched) the queue's unfinished-task counter is 1
and no state with counter 0 is reachable: `q.join()` never returns, so
`multi_thread_check` does not terminate for every worker count W ≥ 0. -/
theorem c1_cex_zero_workers_never_join :
    (initState [⟨"1", "01/2025", "123", 0, 0⟩] 0).workers = [] ∧
    (initState [⟨"1", "01/2025", "123", 0, 0⟩] 0).unfinished = 1 ∧
    ¬ ∃ s, Reach evalSim (initState [⟨"1", "01/2025", "123", 0, 0⟩] 0) s ∧
        s.unfinished = 0 := by
  refine ⟨rfl, rfl, ?_⟩
  rintro ⟨s, hs, h0⟩
  rcases Relation.ReflTransGen.cases_head hs with heq | ⟨c, hstep, _⟩
  · rw [← heq] at h0
    simp [initState] at h0
  · exact no_step_no_workers hstep rfl

/-- C7 (amended): if evaluating a record raises inside a worker, the worker
thread dies without calling `task_done`, so the unfinished-task counter can
never return to zero: whenever the join barrier is reached, no fault ever
happened — equivalently, one faulting evaluation prevents
`multi_thread_check` from ever completing, rather than being contained. -/
theorem c7_fault_prevents_join (evalF : BLSRecord → Option (Option String))
    (records : List BLSRecord) (threads : Nat) (s : PoolState)
    (h : Reach evalF (initState records threads) s) (h0 : s.unfinished = 0) :
    s.faulted = 0 := by
  have := unfinished_eq h
  omega

/-- Witness for C7 at the trivial joined state of an empty run. -/
theorem c7_witness : (initState [] 0).faulted = 0 :=
  c7_fault_prevents_join evalSim [] 0 (initState [] 0) Relation.ReflTransGen.refl rfl

/-- C7 counterexample: one worker, two records, the first of which faults
during evaluation.  The claim says the worker keeps claiming and the run
completes; in fact the pool gets stuck in states with unfinished counter 2:
no join state is ever reachable, and the second record is never
evaluated. -/
theorem c7_cex_worker_fault_kills_pool :
    evalFault ⟨"FAULT", "01/2025", "123", 0, 0⟩ = none ∧
    ¬ ∃ s, Reach evalFault (initState [⟨"FAULT", "01/2025", "123", 0, 0⟩,
        ⟨"2", "01/2025", "124", 150, 0⟩] 1) s ∧ s.unfinished = 0 := by
  refine ⟨rfl, ?_⟩
  rintro ⟨s, hs, h0⟩
  have hP := reach_invariant (fun s =>
      s = ⟨[⟨"FAULT", "01/2025", "123", 0, 0⟩, ⟨"2", "01/2025", "124", 150, 0⟩], 2, [], [.idle], 0⟩ ∨
      s = ⟨[⟨"2", "01/2025", "124", 150, 0⟩], 2, [], [.busy ⟨"FAULT", "01/2025", "123", 0, 0⟩], 0⟩ ∨
      s = ⟨[⟨"2", "01/2025", "124", 150, 0⟩], 2, [], [], 1⟩)
    cex_step_closed hs (Or.inl rfl)
  rcases hP with rfl | rfl | rfl <;> simp at h0



/-! ### Flat-file format lemmas -/

theorem splitPipe_no_sep (a : List Char) (acc : List Char) (h : '|' ∉ a) :
    splitPipe a acc = [acc.reverse ++ a] := by
  induction a generalizing acc with
  | nil => simp [splitPipe]
  | cons c rest ih =>
    have hc : ¬(c = '|') := fun hc => h (hc ▸ List.mem_cons_self c rest)
    have hrest : '|' ∉ rest := fun hr => h (List.mem_cons_of_mem c hr)
    simp [splitPipe, hc, ih _ hrest]

theorem splitPipe_sep (a rest acc : List Char) (h : '|' ∉ a) :
    splitPipe (a ++ '|' :: rest) acc = (acc.reverse ++ a) :: splitPipe rest [] := by
  induction a generalizing acc with
  | nil => simp [splitPipe]
  | cons c a' ih =>
    have hc : ¬(c = '|') := fun hc => h (hc ▸ List.mem_cons_self c a')
    have ha' : '|' ∉ a' := fun hr => h (List.mem_cons_of_mem c hr)
    simp [splitPipe, hc, ih _ ha']

theorem splitPipe_four (c e f b : List Char)
    (hc : '|' ∉ c) (he : '|' ∉ e) (hf : '|' ∉ f) (hb : '|' ∉ b) :
    splitPipe (c ++ '|' :: (e ++ '|' :: (f ++ '|' :: b))) [] = [c, e, f, b] := by
  rw [splitPipe_sep _ _ _ hc, splitPipe_sep _ _ _ he, splitPipe_sep _ _ _ hf,
    splitPipe_no_sep _ _ hb]
  simp

theorem recordStr_data (r : BLSRecord) :
    (recordStr r).data =
      r.code.data ++ '|' :: (r.expiry.data ++ '|' :: (r.ref.data ++ '|' ::
        ('$' :: (toString r.balance).data))) := by
  simp [recordStr, String.data_append]

theorem digitChar_isDigit (d : Nat) (h : d < 10) : (digitChar d).isDigit = true := by
  interval_cases d <;> decide

theorem natReprGo_digits (fuel : Nat) :
    ∀ (n : Nat) (acc : List Char), (∀ c ∈ acc, c.isDigit) →
      ∀ c ∈ natReprGo fuel n acc, c.isDigit = true := by
  induction fuel with
  | zero => intro n acc hacc; exact hacc
  | succ fuel ih =>
    intro n acc hacc c hc
    rw [natReprGo] at hc
    split at hc
    · rcases List.mem_cons.mp hc with rfl | hmem
      · exact digitChar_isDigit _ (by omega)
      · exact hacc _ hmem
    · refine ih (n / 10) _ ?_ c hc
      intro d hd
      rcases List.mem_cons.mp hd with rfl | hmem
      · exact digitChar_isDigit _ (Nat.mod_lt _ (by omega))
      · exact hacc _ hmem

theorem natRepr_digits (n : Nat) : ∀ c ∈ natRepr n, c.isDigit = true :=
  natReprGo_digits (n + 1) n [] (by simp)

theorem expiryStr_no_pipe (m y : Nat) : '|' ∉ (expiryStr m y).data := by
  intro hmem
  have hmem' : '|' ∈ (if m < 10 then '0' :: natRepr m else natRepr m) ++
      '/' :: natRepr y := hmem
  rcases List.mem_append.mp hmem' with h1 | h2
  · by_cases hm : m < 10
    · rw [if_pos hm] at h1
      rcases List.mem_cons.mp h1 with h | h
      · exact absurd h (by decide)
      · exact absurd (natRepr_digits m _ h) (by decide)
    · rw [if_neg hm] at h1
      exact absurd (natRepr_digits m _ h1) (by decide)
  · rcases List.mem_cons.mp h2 with h | h
    · exact absurd h (by decide)
    · exact absurd (natRepr_digits y _ h) (by decide)

theorem digits_no_pipe {s : String} (h : ∀ c ∈ s.data, c.isDigit) :
    '|' ∉ s.data := by
  intro hmem
  exact absurd (h _ hmem) (by decide)

theorem parseLineCheck_skip (m : String) (h : (splitPipe m.data []).length < 4) :
    parseLineCheck m = .skipped := by
  rw [parseLineCheck]
  split
  · rename_i code expiry ref bal tl heq
    rw [heq] at h
    simp at h
    omega
  · rfl

theorem parseLineAttempt_err (ln : String)
    (h : (splitPipe ln.data []).length < 4) :
    parseLineAttempt ln = .error () := by
  rw [parseLineAttempt]
  split
  · rename_i code expiry ref bal tl heq
    rw [heq] at h
    simp at h
    omega
  · rfl

/-- C6 (amended): when the enable flag is disabled, `handle_attempt_book`
never calls `real_book_request` at all — whether or not `--use-real` was
passed — so no configuration error is reported; each sampled attempt runs
the simulation placeholder instead, which produces a simulated appointment
id and appends a `BOOKED_SIM` line to the hits file exactly when the random
draw exceeds 0.78 or the record's balance is at least 120, and otherwise
fails with no file write. -/
theorem c6_disabled_attempt_runs_simulation (useReal rndGt : Bool)
    (apptSuffix : String) (r : BLSRecord) :
    handle_attempt_book_one false useReal rndGt apptSuffix r =
      (if rndGt = true ∨ 120 ≤ r.balance then
        (.simSuccess ("SIM-" ++ apptSuffix),
          ["BOOKED_SIM|" ++ ("SIM-" ++ apptSuffix) ++ "|" ++ recordStr r])
      else (.simFail "Simulated no-availability or invalid credentials", [])) ∧
    reportsConfigError (handle_attempt_book_one false useReal rndGt apptSuffix r).1
      = false := by
  by_cases h : rndGt = true ∨ 120 ≤ r.balance
  · simp [handle_attempt_book_one, real_book_request_simulation_placeholder,
      reportsConfigError, h]
  · simp [handle_attempt_book_one, real_book_request_simulation_placeholder,
      reportsConfigError, h]

/-- C6 counterexample: the flag is at its default (disabled), real
integration is requested, and the sampled record has balance 120.  The
attempt does not report a configuration error: it succeeds through the
simulation placeholder, produces a simulated appointment id, and appends a
`BOOKED_SIM` line to the hits file. -/
theorem c6_cex_disabled_use_real_still_books :
    handle_attempt_book_one REAL_INTEGRATION_ENABLED true false "00000000"
        ⟨"1", "01/2025", "123", 120, 0⟩ =
      (.simSuccess "SIM-00000000",
        ["BOOKED_SIM|SIM-00000000|1|01/2025|123|$120"]) ∧
    reportsConfigError (handle_attempt_book_one REAL_INTEGRATION_ENABLED true false
        "00000000" ⟨"1", "01/2025", "123", 120, 0⟩).1 = false := by
  constructor
  · decide
  · decide


/-- C8: a record produced by the generator, written in the flat-file format
`identifier|expiry|reference|$balance`, re-parses under the reader (split on
`'|'`, strip leading `'$'`, parse the balance as an integer) to a record
with identical identifier, expiry, reference and balance (only the fresh
creation timestamp differs). -/
theorem c8_generator_round_trip (startYear : Nat) (r : BLSRecord)
    (h : GeneratedRecord startYear r) :
    parseLineCheck (recordStr r) = .ok ⟨r.code, r.expiry, r.ref, r.balance, 0⟩ := by
  obtain ⟨hlen, hcdig, ⟨m, y, hm1, hm12, hy1, hy2, hexp⟩, hrlen, hrdig, hbal⟩ := h
  have hc : '|' ∉ r.code.data := digits_no_pipe hcdig
  have hf : '|' ∉ r.ref.data := digits_no_pipe hrdig
  have he : '|' ∉ r.expiry.data := by rw [hexp]; exact expiryStr_no_pipe m y
  have hbal' : '|' ∉ '$' :: (toString r.balance).data ∧
      parseInt (List.dropWhile (fun c => decide (c = '$'))
        ('$' :: (toString r.balance).data)) = some r.balance := by
    simp only [List.mem_cons, List.not_mem_nil, or_false] at hbal
    rcases hbal with h' | h' | h' | h' | h' | h' | h' <;>
      rw [h'] <;> exact ⟨by decide, by decide⟩
  have hsplit : splitPipe (recordStr r).data [] =
      [r.code.data, r.expiry.data, r.ref.data, '$' :: (toString r.balance).data] := by
    rw [recordStr_data]
    exact splitPipe_four _ _ _ _ hc he hf hbal'.1
  rw [parseLineCheck, hsplit]
  simp only [hbal'.2]

/-- Witness for C8 at a concrete generated record. -/
theorem c8_witness :
    parseLineCheck (recordStr ⟨"0123456789012345", expiryStr 1 2025, "123", 120, 0⟩) =
      .ok ⟨"0123456789012345", expiryStr 1 2025, "123", 120, 0⟩ :=
  c8_generator_round_trip 2025 ⟨"0123456789012345", expiryStr 1 2025, "123", 120, 0⟩
    ⟨by decide, by decide, ⟨1, 2025, by decide, by decide, by decide, by decide, rfl⟩,
      by decide, by decide, by decide⟩

/-- C9 (amended): in the check flow (`handle_simulate_check`) every line
with fewer than 4 `'|'`-separated fields is silently skipped and the
remaining lines still load; in the attempt-book flow
(`handle_attempt_book`) there is no such guard — a sampled line with fewer
than 4 fields raises `IndexError` and aborts the whole batch. -/
theorem c9_malformed_line_handling :
    (∀ (pre post : List String) (m : String),
        (splitPipe m.data []).length < 4 →
        loadRecords (pre ++ m :: post) = loadRecords (pre ++ post)) ∧
    (∀ (ln : String) (rest : List String),
        (splitPipe ln.data []).length < 4 →
        attemptParseAll (ln :: rest) = .error ()) := by
  constructor
  · intro pre post m h
    induction pre with
    | nil =>
      simp only [List.nil_append, loadRecords, parseLineCheck_skip m h]
    | cons p pre ih =>
      cases hp : parseLineCheck p with
      | err => simp [loadRecords, hp]
      | skipped => simp [loadRecords, hp, ih]
      | ok r => simp [loadRecords, hp, ih]
  · intro ln rest h
    rw [attemptParseAll, parseLineAttempt_err ln h]

/-- C9 counterexample: on the two-line input `["a|b", "1|2|3|$0"]` the check
flow skips the malformed first line and still loads the well-formed second,
but the attempt-book flow raises on the malformed line and loads nothing:
the claim's "in both flows" fails. -/
theorem c9_cex_attempt_flow_aborts_on_malformed :
    loadRecords ["a|b", "1|2|3|$0"] = .ok [⟨"1", "2", "3", 0, 0⟩] ∧
    attemptParseAll ["a|b", "1|2|3|$0"] = .error () := by
  constructor
  · rfl
  · rfl

end BLS
